import Mathlib

/-!
Shallow embedding of the mcp-chess OAuth 2.0 authorization-code + PKCE flow
and the MCP JSON-RPC tool-call gateway.

Sources embedded:
- `lib/mcp-oauth.ts` (src/unnamed/part_000): PKCE validation, code issuance and
  exchange, bearer-token resolution, WWW-Authenticate header.
- `app/oauth/authorize/route.ts` (src/unnamed/part_016): GET /oauth/authorize.
- `app/oauth/token/route.ts`: POST /oauth/token.
- `app/api/mcp/route.ts`: JSON-RPC envelope, tools/list annotations,
  tools/call dispatch, buildToolContent, parseImageDataUrl.
- `lib/mcp-tools.ts` (src/unnamed/part_004): tool registry (names, which
  executors demand an authenticated caller up front) and the snapshot executor.
- `lib/snapshot.ts`: getSnapshotVersion / getSnapshotPath.

Platform primitives that are not part of the repository (node:crypto SHA-256
in base64url, the WHATWG URL parser, encodeURIComponent) are passed in as
explicit function parameters, so every theorem is stated for an arbitrary
instantiation of them and witnesses pick concrete ones.

The database (Prisma/SQL) is modelled as explicit state: lists of
authorization-code rows and access-token rows threaded through each operation.
`updateMany` with a `where` filter becomes a filtered map plus the count of
matched rows, which is exactly the information the source inspects.
-/

namespace McpChess

/-- JSON value model used for tool arguments and tool results. Numbers are
modelled as integers, which covers every numeric value this gateway produces
(sizes, counts); floats never arise in the embedded code paths. -/
inductive Json where
  | null : Json
  | bool (b : Bool) : Json
  | num (n : Int) : Json
  | str (s : String) : Json
  | arr (items : List Json) : Json
  | obj (fields : List (String × Json)) : Json
deriving Repr

/-- JSON string escaping as performed by JSON.stringify: quote, backslash and
control characters are escaped, everything else is copied through. -/
def jsonEscapeChar (c : Char) : String :=
  if c = '"' then "\\\""
  else if c = '\\' then "\\\\"
  else if c = '\n' then "\\n"
  else if c = '\r' then "\\r"
  else if c = '\t' then "\\t"
  else if c.toNat < 32 then
    "\\u00" ++ String.mk [Nat.digitChar (c.toNat / 16), Nat.digitChar (c.toNat % 16)]
  else String.mk [c]

/-- Quote a string the way JSON.stringify does. -/
def jsonQuote (s : String) : String :=
  "\"" ++ String.join (s.toList.map jsonEscapeChar) ++ "\""

mutual

/-- JSON.stringify over the Json model (no spacing, insertion order kept). -/
def Json.stringify : Json → String
  | .null => "null"
  | .bool b => if b then "true" else "false"
  | .num n => toString n
  | .str s => jsonQuote s
  | .arr items => "[" ++ stringifyItems items ++ "]"
  | .obj fields => "\x7b" ++ stringifyFields fields ++ "\x7d"

/-- Comma-separated serialization of array elements. -/
def stringifyItems : List Json → String
  | [] => ""
  | [x] => Json.stringify x
  | x :: rest => Json.stringify x ++ "," ++ stringifyItems rest

/-- Comma-separated serialization of object fields. -/
def stringifyFields : List (String × Json) → String
  | [] => ""
  | [(k, v)] => jsonQuote k ++ ":" ++ Json.stringify v
  | (k, v) :: rest => jsonQuote k ++ ":" ++ Json.stringify v ++ "," ++ stringifyFields rest

end

/-- JavaScript `String.prototype.trim`: strip leading and trailing
whitespace. Implemented over the character list. -/
def jsTrim (s : String) : String :=
  ⟨((s.data.dropWhile Char.isWhitespace).reverse.dropWhile Char.isWhitespace).reverse⟩

/-- Lower-casing of an ASCII letter (JS `toLowerCase` on the ASCII range,
which is all the bearer scheme comparison needs). -/
def lowerAscii (c : Char) : Char :=
  if 'A' ≤ c && c ≤ 'Z' then Char.ofNat (c.toNat + 32) else c

/-- JavaScript `String.prototype.toLowerCase` on ASCII strings. -/
def jsToLower (s : String) : String := ⟨s.data.map lowerAscii⟩

/-- `s.startsWith(pre)`. -/
def strStartsWith (s pre : String) : Bool := pre.data.isPrefixOf s.data

/-- Split a string into its maximal non-whitespace runs: the combined effect
of `value.trim().split(/\s+/)` together with the falsiness check on the first
element (an all-whitespace input yields no tokens). `acc` holds the current
run, reversed. -/
def splitWsAux : List Char → List Char → List String
  | [], acc => if acc.isEmpty then [] else [⟨acc.reverse⟩]
  | c :: cs, acc =>
    if c.isWhitespace then
      if acc.isEmpty then splitWsAux cs []
      else ⟨acc.reverse⟩ :: splitWsAux cs []
    else splitWsAux cs (c :: acc)

/-- The whitespace-delimited tokens of a string. -/
def splitWsTokens (s : String) : List String := splitWsAux s.data []

/-- First field of a JSON object with the given key (JS property lookup). -/
def lookupField (fields : List (String × Json)) (k : String) : Option Json :=
  (fields.find? (fun p => p.1 == k)).map (fun p => p.2)

/-- `typeof result.k === "string"` access: the field's string value, if the
field exists and holds a string. -/
def strField (fields : List (String × Json)) (k : String) : Option String :=
  match lookupField fields k with
  | some (.str s) => some s
  | _ => none

/-- JavaScript falsiness of a nullable string: null or empty. Query
parameters read with `url.searchParams.get` are null when absent, and the
routes guard them with plain `!value` checks. -/
def optFalsy : Option String → Bool
  | none => true
  | some s => s.isEmpty

/-- `if (state) target.searchParams.set("state", state)`: the state query
parameter is attached only when its value is truthy (present and non-empty). -/
def stateQ (state : Option String) : Option String :=
  if optFalsy state then none else state

/-- Characters allowed by the PKCE verifier/challenge regex
`[A-Za-z0-9\-._~]`. -/
def isPkceChar (c : Char) : Bool :=
  c.isAlphanum || c == '-' || c == '.' || c == '_' || c == '~'

/-- `isValidPkceVerifier` from lib/mcp-oauth.ts: 43 to 128 unreserved
characters. -/
def isValidPkceVerifier (s : String) : Bool :=
  43 ≤ s.length && s.length ≤ 128 && s.toList.all isPkceChar

/-- `isValidCodeChallenge` from lib/mcp-oauth.ts: same character set and
length bounds as the verifier. -/
def isValidCodeChallenge (s : String) : Bool :=
  43 ≤ s.length && s.length ≤ 128 && s.toList.all isPkceChar

/-- The result of the WHATWG URL parser that the routes rely on: the scheme
with trailing colon and the fragment (`""` when absent). The parser itself is
a platform primitive, passed in as a `String → Option ParsedUrl` function that
returns none when `new URL(...)` would throw. -/
structure ParsedUrl where
  protocol : String
  fragment : String
deriving Repr, DecidableEq

/-- `validateRedirectUri` from lib/mcp-oauth.ts: must parse as an absolute
URL, with http/https scheme and no fragment. -/
def validateRedirectUri (parseUrl : String → Option ParsedUrl) (uri : String) : Bool :=
  match parseUrl uri with
  | none => false
  | some p => (p.protocol == "https:" || p.protocol == "http:") && p.fragment == ""

/-- `verifyPkce` from lib/mcp-oauth.ts. `hash` stands for the base64url
SHA-256 digest function (node:crypto). -/
def verifyPkce (hash : String → String) (challenge method verifier : String) : Bool :=
  if method == "plain" then verifier == challenge
  else if method == "S256" then hash verifier == challenge
  else false

/-- `assertAllowedClientId` from lib/mcp-oauth.ts, as a predicate over the
parsed `MCP_OAUTH_ALLOWED_CLIENT_IDS` allow-list: an empty list allows every
client, otherwise the client id must be listed. -/
def clientIdAllowed (allowed : List String) (clientId : String) : Bool :=
  allowed.isEmpty || allowed.contains clientId

/-- `getWwwAuthenticateHeader` from lib/mcp-oauth.ts. -/
def getWwwAuthenticateHeader (baseUrl : String) : String :=
  "Bearer realm=\"mcp-chess\", authorization_uri=\"" ++ baseUrl ++
    "/oauth/authorize\", resource_metadata=\"" ++ baseUrl ++
    "/.well-known/oauth-protected-resource\", scope=\"mcp:tools\""

/-- A row of the `OAuthCode` table (prisma/migrations/0001_init): only the
hash of the code value is stored; `scope` and `resource` are nullable;
`usedAt` is null until the code is consumed. Timestamps are epoch
milliseconds (`Date.getTime()`). -/
structure OAuthCode where
  id : String
  codeHash : String
  userId : String
  clientId : String
  redirectUri : String
  codeChallenge : String
  codeChallengeMethod : String
  scope : Option String
  resource : Option String
  expiresAt : Int
  usedAt : Option Int
deriving Repr, DecidableEq

/-- A row of the `OAuthAccessToken` table: only the hash of the bearer value
is stored; `lastUsedAt` is advisory. -/
structure AccessToken where
  tokenHash : String
  userId : String
  clientId : String
  scope : Option String
  resource : Option String
  expiresAt : Int
  lastUsedAt : Option Int
deriving Repr, DecidableEq

/-- The durable OAuth state: the two auth tables, as lists of rows. The
`codeHash` and `tokenHash` columns carry unique indexes, so `findUnique` is
modelled as `find?`; fresh inserts are modelled by consing the new row. -/
structure Db where
  oAuthCodes : List OAuthCode
  accessTokens : List AccessToken
deriving Repr, DecidableEq

/-- Authorization-code lifetime: `CODE_TTL_SECONDS = 5 * 60`, in ms. -/
def codeTtlMs : Int := 5 * 60 * 1000

/-- Access-token lifetime: `ACCESS_TOKEN_TTL_SECONDS = 60 * 60`, in ms. -/
def accessTokenTtlMs : Int := 60 * 60 * 1000

/-- `createAuthorizationCode` from lib/mcp-oauth.ts: store the hash of a
fresh random code with expiry now + 5 minutes and `usedAt` null, returning
the plaintext code. The random code value and the generated row id are inputs
(`randomToken` / cuid are external randomness). -/
def createAuthorizationCode (hash : String → String) (now : Int)
    (freshId freshCode : String)
    (userId clientId redirectUri codeChallenge codeChallengeMethod : String)
    (scope : Option String) (resource : Option String) (db : Db) : String × Db :=
  let row : OAuthCode := {
    id := freshId
    codeHash := hash freshCode
    userId := userId
    clientId := clientId
    redirectUri := redirectUri
    codeChallenge := codeChallenge
    codeChallengeMethod := codeChallengeMethod
    scope := some (scope.getD "mcp:tools")
    resource := resource
    expiresAt := now + codeTtlMs
    usedAt := none }
  (freshCode, { db with oAuthCodes := row :: db.oAuthCodes })

/-- `db.oAuthCode.findUnique({ where: { codeHash } })`. -/
def findCode (db : Db) (codeHash : String) : Option OAuthCode :=
  db.oAuthCodes.find? (fun r => r.codeHash == codeHash)

/-- The `updateMany` row filter `{ id, usedAt: null }`. -/
def isUnusedWithId (id : String) (r : OAuthCode) : Bool :=
  r.id == id && r.usedAt.isNone

/-- The `updateMany` per-row effect: set `usedAt` on matching rows. -/
def markUsedRow (id : String) (now : Int) (r : OAuthCode) : OAuthCode :=
  if isUnusedWithId id r then { r with usedAt := some now } else r

/-- `db.oAuthCode.updateMany({ where: { id, usedAt: null }, data: { usedAt } })`:
set `usedAt` on every row matching the filter and report how many rows
matched. This is the atomic conditional mark-used write. -/
def markCodeUsed (db : Db) (id : String) (now : Int) : Db × Nat :=
  ({ db with oAuthCodes := db.oAuthCodes.map (markUsedRow id now) },
   (db.oAuthCodes.filter (isUnusedWithId id)).length)

/-- The fields POST /oauth/token forwards into `exchangeAuthorizationCode`.
The route passes `clientId: clientId || undefined` and likewise for the
redirect URI, so both are optional at runtime even though the TypeScript
signature declares strings. -/
structure ExchangeInput where
  code : String
  clientId : Option String
  redirectUri : Option String
  codeVerifier : String
deriving Repr, DecidableEq

/-- The success payload of `exchangeAuthorizationCode`. -/
structure ExchangeResult where
  accessToken : String
  scope : String
  expiresIn : Int
deriving Repr, DecidableEq

/-- The validation phase of `exchangeAuthorizationCode` (everything before
the conditional mark-used write): look the code up by hash and check
used/expiry, client and redirect binding, and the PKCE verifier. Every
failure in the source throws the same `invalid_grant` error and leaves the
store untouched, so the phase returns the located row or nothing. -/
def exchangeCheck (hash : String → String) (now : Int) (input : ExchangeInput)
    (db : Db) : Option OAuthCode :=
  match findCode db (hash input.code) with
  | none => none
  | some authCode =>
    if authCode.usedAt.isSome || decide (authCode.expiresAt ≤ now) then none
    else if input.clientId != some authCode.clientId
        || input.redirectUri != some authCode.redirectUri then none
    else if !verifyPkce hash authCode.codeChallenge authCode.codeChallengeMethod
        input.codeVerifier then none
    else some authCode

/-- The commit phase of `exchangeAuthorizationCode`: atomically mark the code
used (conditional on `usedAt` still null); when zero rows were affected the
exchange loses the race and fails with `invalid_grant`; otherwise a fresh
access token row is stored (hash only) and the plaintext token returned. -/
def exchangeCommit (hash : String → String) (now : Int) (freshToken : String)
    (authCode : OAuthCode) (db : Db) : Except String ExchangeResult × Db :=
  let (db1, count) := markCodeUsed db authCode.id now
  if count = 0 then (.error "invalid_grant", db1)
  else
    let tok : AccessToken := {
      tokenHash := hash freshToken
      userId := authCode.userId
      clientId := authCode.clientId
      scope := authCode.scope
      resource := authCode.resource
      expiresAt := now + accessTokenTtlMs
      lastUsedAt := none }
    (.ok { accessToken := freshToken
           scope := authCode.scope.getD "mcp:tools"
           expiresIn := 3600 },
     { db1 with accessTokens := tok :: db1.accessTokens })

/-- `exchangeAuthorizationCode` from lib/mcp-oauth.ts: validation phase, then
the conditional mark-used commit. All validation failures throw
`invalid_grant` without touching the store. -/
def exchangeAuthorizationCode (hash : String → String) (now : Int)
    (freshToken : String) (input : ExchangeInput) (db : Db) :
    Except String ExchangeResult × Db :=
  match exchangeCheck hash now input db with
  | none => (.error "invalid_grant", db)
  | some authCode => exchangeCommit hash now freshToken authCode db

/-- `extractBearerToken` from lib/mcp-oauth.ts: trim, split on whitespace,
case-insensitive `bearer` scheme, rejoin the rest with single spaces; empty
results are null. -/
def extractBearerToken (authHeader : Option String) : Option String :=
  match authHeader with
  | none => none
  | some h =>
    match splitWsTokens h with
    | [] => none
    | scheme :: rest =>
      if jsToLower scheme != "bearer" then none
      else
        let token := jsTrim (String.intercalate " " rest)
        if token.isEmpty then none else some token

/-- `getUserIdFromBearerToken` from lib/mcp-oauth.ts: hash the presented
bearer value, look up the unique unexpired token row, stamp `lastUsedAt`
best-effort, and return the owning user id; otherwise null and an untouched
store. -/
def getUserIdFromBearerToken (hash : String → String) (now : Int)
    (authHeader : Option String) (db : Db) : Option String × Db :=
  match extractBearerToken authHeader with
  | none => (none, db)
  | some token =>
    let tokenHash := hash token
    match db.accessTokens.find? (fun r => r.tokenHash == tokenHash) with
    | none => (none, db)
    | some record =>
      if record.expiresAt ≤ now then (none, db)
      else
        let tokens := db.accessTokens.map (fun r =>
          if r.tokenHash == tokenHash then { r with lastUsedAt := some now } else r)
        (some record.userId, { db with accessTokens := tokens })

/-- The query parameters GET /oauth/authorize reads; each is null when the
parameter is absent from the query string. -/
structure AuthorizeParams where
  responseType : Option String
  clientId : Option String
  redirectUri : Option String
  state : Option String
  scope : Option String
  resource : Option String
  codeChallenge : Option String
  codeChallengeMethod : Option String
deriving Repr, DecidableEq

/-- The outcome of GET /oauth/authorize. Redirect targets are kept
structurally: the base URI plus the query parameters the route sets on it.
`errorRedirect` and `codeRedirect` carry the state value the route attaches
(none when the route leaves it off). -/
inductive AuthorizeResult where
  | jsonError (status : Nat) (error : String) (description : String)
  | errorRedirect (base : String) (error : String) (description : String)
      (state : Option String)
  | signInRedirect (signInBase : String) (callbackSearch : String)
  | codeRedirect (base : String) (code : String) (state : Option String)
deriving Repr, DecidableEq

/-- HTTP status of an authorize outcome: JSON errors carry their status,
every redirect is a 302. -/
def AuthorizeResult.status : AuthorizeResult → Nat
  | .jsonError s _ _ => s
  | .errorRedirect _ _ _ _ => 302
  | .signInRedirect _ _ => 302
  | .codeRedirect _ _ _ => 302

/-- The trimmed effective code_challenge_method:
`(url.searchParams.get("code_challenge_method") ?? "plain").trim()`. -/
def effectiveMethod (p : AuthorizeParams) : String :=
  jsTrim (p.codeChallengeMethod.getD "plain")

/-- GET /oauth/authorize (app/oauth/authorize/route.ts). Inputs beyond the
query parameters: the URL parser, the hash function, the parsed client
allow-list, the authenticated session user (if any), the clock, the fresh
row id and code value minted on success, and the raw query string (preserved
into the sign-in callback). Validation order: missing client_id/redirect_uri
and invalid redirect_uri are terminal 400 JSON errors; from then on failures
redirect back to the redirect_uri; with no session the caller is sent to
sign-in; otherwise a code is minted and attached to the redirect. -/
def authorizeGET (parseUrl : String → Option ParsedUrl) (hash : String → String)
    (allowed : List String) (session : Option String) (now : Int)
    (freshId freshCode : String) (search : String) (p : AuthorizeParams)
    (db : Db) : AuthorizeResult × Db :=
  if optFalsy p.clientId || optFalsy p.redirectUri then
    (.jsonError 400 "invalid_request" "Missing client_id or redirect_uri", db)
  else
    let clientId := p.clientId.getD ""
    let redirectUri := p.redirectUri.getD ""
    if !validateRedirectUri parseUrl redirectUri then
      (.jsonError 400 "invalid_request" "Invalid redirect_uri", db)
    else if p.responseType != some "code" then
      (.errorRedirect redirectUri "unsupported_response_type"
        "Only response_type=code is supported" (stateQ p.state), db)
    else if optFalsy p.codeChallenge
        || !isValidCodeChallenge (p.codeChallenge.getD "") then
      (.errorRedirect redirectUri "invalid_request"
        "Missing or invalid code_challenge" (stateQ p.state), db)
    else if effectiveMethod p != "S256" && effectiveMethod p != "plain" then
      (.errorRedirect redirectUri "invalid_request"
        "Unsupported code_challenge_method" (stateQ p.state), db)
    else if !clientIdAllowed allowed clientId then
      (.errorRedirect redirectUri "unauthorized_client"
        "Client is not allowed" (stateQ p.state), db)
    else
      match session with
      | none => (.signInRedirect "/api/auth/signin/google" search, db)
      | some userId =>
        let scope := jsTrim (p.scope.getD "mcp:tools")
        let (code, db1) := createAuthorizationCode hash now freshId freshCode
          userId clientId redirectUri (p.codeChallenge.getD "")
          (effectiveMethod p)
          (some (if scope.isEmpty then "mcp:tools" else scope)) p.resource db
        (.codeRedirect redirectUri code (stateQ p.state), db1)

/-- The normalized body POST /oauth/token builds in `getTokenRequestBody`:
whatever the content type, every field is coerced to a string, absent fields
(and absent Basic credentials) becoming `""`. -/
structure TokenBody where
  grantType : String
  code : String
  clientId : String
  clientSecret : String
  redirectUri : String
  codeVerifier : String
deriving Repr, DecidableEq

/-- The outcome of POST /oauth/token: an OAuth error document with its HTTP
status, or the token response `{access_token, token_type, expires_in, scope}`. -/
inductive TokenResult where
  | oauthError (status : Nat) (error : String) (description : String)
  | issued (accessToken : String) (tokenType : String) (expiresIn : Int)
      (scope : String)
deriving Repr, DecidableEq

/-- POST /oauth/token (app/oauth/token/route.ts), after body parsing: check
grant type, presence of code and verifier, the PKCE verifier character set,
the client allow-list when a client id was supplied, then run the exchange;
empty client id / redirect URI are forwarded as undefined (`value ||
undefined`). An `invalid_grant` failure from the exchange becomes a 400
`invalid_grant` response. -/
def tokenPOST (hash : String → String) (allowed : List String) (now : Int)
    (freshToken : String) (body : TokenBody) (db : Db) : TokenResult × Db :=
  if body.grantType != "authorization_code" then
    (.oauthError 400 "unsupported_grant_type"
      "Only authorization_code is supported", db)
  else if body.code.isEmpty || body.codeVerifier.isEmpty then
    (.oauthError 400 "invalid_request" "Missing required OAuth token fields", db)
  else if !isValidPkceVerifier body.codeVerifier then
    (.oauthError 400 "invalid_request" "Invalid code_verifier", db)
  else if !body.clientId.isEmpty && !clientIdAllowed allowed body.clientId then
    (.oauthError 400 "unauthorized_client" "Client is not allowed", db)
  else
    let input : ExchangeInput := {
      code := body.code
      clientId := if body.clientId.isEmpty then none else some body.clientId
      redirectUri := if body.redirectUri.isEmpty then none else some body.redirectUri
      codeVerifier := body.codeVerifier }
    match exchangeAuthorizationCode hash now freshToken input db with
    | (.error _, db1) =>
      (.oauthError 400 "invalid_grant" "Authorization code is invalid or expired", db1)
    | (.ok t, db1) => (.issued t.accessToken "Bearer" t.expiresIn t.scope, db1)

/-- The names of the tools registered in `toolDefs` (lib/mcp-tools.ts), in
registry order. The registry is a module-level constant: immutable at
runtime. -/
def toolNames : List String :=
  ["query_users_by_email", "new_game", "move_piece", "snapshot", "status",
   "get_game_status", "history", "get_game_history", "list_games", "get_game",
   "get_chat_messages", "post_chat_message"]

/-- `readOnlyToolNames` from app/api/mcp/route.ts: the fixed set of tools
annotated with `readOnlyHint` in tools/list. -/
def readOnlyToolNames : List String :=
  ["query_users_by_email", "snapshot", "status", "get_game_status", "history",
   "get_game_history", "list_games", "get_game", "get_chat_messages"]

/-- The tools whose executors begin with `requireAuth(ctx.userId)`
(lib/mcp-tools.ts): they throw `Authentication required` before any other
work when the caller identity is null. -/
def authGatedToolNames : List String :=
  ["new_game", "move_piece", "post_chat_message"]

/-- A tools/list catalog entry, reduced to what the route computes per tool:
its name and whether the `annotations.readOnlyHint` object is attached. -/
structure ToolListEntry where
  name : String
  readOnlyHint : Bool
deriving Repr, DecidableEq

/-- The tools/list response body: every registered tool, annotated with
`readOnlyHint` exactly when its name is in `readOnlyToolNames`. -/
def toolsList : List ToolListEntry :=
  toolNames.map (fun n => { name := n, readOnlyHint := readOnlyToolNames.contains n })

/-- One digit of `Number.prototype.toString(36)`: 0-9 then a-z. -/
def base36Char (n : Nat) : Char :=
  if n < 10 then Char.ofNat (48 + n) else Char.ofNat (87 + n)

/-- Helper for base-36 rendering, most significant digit first; the first
argument is fuel, always at least the digit count of `n`. -/
def toBase36Core : Nat → Nat → List Char → List Char
  | 0, _, acc => acc
  | fuel + 1, n, acc =>
    if n = 0 then acc
    else toBase36Core fuel (n / 36) (base36Char (n % 36) :: acc)

/-- `getSnapshotVersion` from lib/snapshot.ts: `updatedAt.getTime().toString(36)`. -/
def getSnapshotVersion (updatedAtMs : Nat) : String :=
  if updatedAtMs = 0 then "0"
  else String.mk (toBase36Core (updatedAtMs + 1) updatedAtMs [])

/-- `getSnapshotPath` from lib/snapshot.ts: `/api/snapshots/<gameId>/<version>.svg`
with a `?size=` suffix when a (truthy) size is given; `encodeComponent` is the
platform's encodeURIComponent. -/
def getSnapshotPath (encodeComponent : String → String)
    (gameId version : String) (size : Int) : String :=
  let path := "/api/snapshots/" ++ encodeComponent gameId ++ "/" ++
    encodeComponent version ++ ".svg"
  if size = 0 then path else path ++ "?size=" ++ toString size

/-- What the snapshot executor reads from a `Game` row. -/
structure Game where
  id : String
  isPublic : Bool
  updatedAtMs : Nat
deriving Repr, DecidableEq

/-- The zod schema `snapshotInput`: `gameId` a non-empty string, `size` an
integer between 200 and 1200 defaulting to 560. Parse failures throw a
ZodError whose exact message is library-generated; it is carried here as the
opaque string "ZodError". -/
def parseSnapshotInput (args : Json) : Except String (String × Int) :=
  match args with
  | .obj fields =>
    match lookupField fields "gameId" with
    | some (.str g) =>
      if g.length < 1 then .error "ZodError"
      else
        match lookupField fields "size" with
        | none => .ok (g, 560)
        | some (.num n) =>
          if 200 ≤ n && n ≤ 1200 then .ok (g, n) else .error "ZodError"
        | some _ => .error "ZodError"
    | _ => .error "ZodError"
  | _ => .error "ZodError"

/-- The external collaborators a tool executor touches: the game table (for
the snapshot executor) and the domain bodies of the other executors, which
are out of scope (database, chess rules, email, pub/sub). `domainAuthed`
covers the executors that begin with `requireAuth` and receives the
authenticated user id; `domainOpen` covers the remaining executors (except
snapshot, which is modelled in full) and receives the nullable identity. -/
structure ToolEnv where
  findGame : String → Option Game
  domainAuthed : String → Json → String → Except String Json
  domainOpen : String → Json → Option String → Except String Json

/-- The snapshot tool executor (lib/mcp-tools.ts): parse the input, look the
game up (absent or non-public games are `Game not found`), and return
`{gameId, version, snapshotPath, mimeType: "image/svg+xml"}`. -/
def snapshotExec (env : ToolEnv) (encodeComponent : String → String)
    (args : Json) : Except String Json :=
  match parseSnapshotInput args with
  | .error e => .error e
  | .ok (gameId, size) =>
    match env.findGame gameId with
    | none => .error "Game not found"
    | some game =>
      if !game.isPublic then .error "Game not found"
      else
        let version := getSnapshotVersion game.updatedAtMs
        .ok (.obj [
          ("gameId", .str game.id),
          ("version", .str version),
          ("snapshotPath", .str (getSnapshotPath encodeComponent game.id version size)),
          ("mimeType", .str "image/svg+xml")])

/-- `executeTool` from lib/mcp-tools.ts: linear lookup in the registry
(unknown names are a distinct error), then the tool's executor. The three
auth-gated executors call `requireAuth` first, so with a null identity they
throw `Authentication required` before any domain work. -/
def executeTool (env : ToolEnv) (encodeComponent : String → String)
    (name : String) (args : Json) (userId : Option String) :
    Except String Json :=
  if !toolNames.contains name then .error ("Unknown tool: " ++ name)
  else if authGatedToolNames.contains name then
    match userId with
    | none => .error "Authentication required"
    | some uid => env.domainAuthed name args uid
  else if name == "snapshot" then snapshotExec env encodeComponent args
  else env.domainOpen name args userId

/-- An MCP content block: the text/image union `ToolContentItem` of
app/api/mcp/route.ts. -/
inductive ContentItem where
  | text (text : String)
  | image (data : String) (mimeType : String)
deriving Repr, DecidableEq

/-- `parseImageDataUrl` from app/api/mcp/route.ts: match
`^data:(image\/[a-zA-Z0-9.+-]+);base64,([A-Za-z0-9+/=_-]+)$` and return the
mime type and base64 payload. -/
def parseImageDataUrl (dataUrl : Option String) : Option (String × String) :=
  match dataUrl with
  | none => none
  | some s =>
    let cs := s.data
    if !("data:".data.isPrefixOf cs) then none
    else
      let rest := cs.drop 5
      let mime := rest.takeWhile (fun c => c != ';')
      let tail := rest.drop mime.length
      if !("image/".data.isPrefixOf mime) then none
      else if (mime.drop 6).isEmpty then none
      else if !(mime.drop 6).all (fun c =>
          c.isAlphanum || c == '.' || c == '+' || c == '-') then none
      else if !(";base64,".data.isPrefixOf tail) then none
      else
        let payload := tail.drop 8
        if payload.isEmpty then none
        else if !payload.all (fun c =>
            c.isAlphanum || c == '+' || c == '/' || c == '=' || c == '_' || c == '-') then none
        else some (⟨mime⟩, ⟨payload⟩)

/-- `buildToolContent` from app/api/mcp/route.ts: for the snapshot tool, an
inline image block when the result carries string `data` (non-blank after
trim) with an `image/*` mime type, else an image block recovered from a
well-formed `dataUrl`; in every other case a single text block holding the
JSON-serialized result. -/
def buildToolContent (name : String) (result : Json) : List ContentItem :=
  let fallback := [ContentItem.text (Json.stringify result)]
  if name == "snapshot" then
    match result with
    | .obj fields =>
      let rawData := (strField fields "data").map (fun s => jsTrim s)
      let rawMime := strField fields "mimeType"
      let dataOk := match rawData with
        | some t => !t.isEmpty
        | none => false
      let mimeOk := match rawMime with
        | some m => strStartsWith m "image/"
        | none => false
      if dataOk && mimeOk then
        [ContentItem.image (rawData.getD "") (rawMime.getD "")]
      else
        match parseImageDataUrl (strField fields "dataUrl") with
        | some (m, b64) => [ContentItem.image b64 (rawMime.getD m)]
        | none => fallback
    | _ => fallback
  else fallback

/-- A JSON-RPC response from the tools/call handler: either a success
envelope with content blocks and `structuredContent`, or an error envelope
with its code, message, HTTP status and optional WWW-Authenticate header. -/
inductive RpcOut where
  | success (id : Json) (content : List ContentItem) (structuredContent : Json)
  | rpcError (id : Json) (code : Int) (message : String) (status : Nat)
      (wwwAuthenticate : Option String)
deriving Repr

/-- The tools/call arm of POST /api/mcp (app/api/mcp/route.ts): resolve the
caller identity (browser session first, then bearer token), require a
non-empty string tool name (-32602 otherwise), execute the tool, special-case
the `Authentication required` sentinel into a -32001 error with HTTP 401 and
a WWW-Authenticate challenge, surface other executor errors as -32000, and on
success wrap the result in content blocks plus `structuredContent`. -/
def mcpToolsCall (env : ToolEnv) (encodeComponent : String → String)
    (hash : String → String) (baseUrl : String) (now : Int)
    (session : Option String) (authHeader : Option String)
    (id : Json) (params : Option Json) (db : Db) : RpcOut × Db :=
  let (bearerUserId, db1) := getUserIdFromBearerToken hash now authHeader db
  let nameValue := match params with
    | some (.obj fields) => lookupField fields "name"
    | _ => none
  let args := match params with
    | some (.obj fields) => (lookupField fields "arguments").getD (.obj [])
    | _ => .obj []
  match nameValue with
  | some (.str n) =>
    if n.isEmpty then
      (.rpcError id (-32602) "Invalid params: tool name is required" 400 none, db1)
    else
      match executeTool env encodeComponent n args (session.orElse (fun _ => bearerUserId)) with
      | .error msg =>
        if msg == "Authentication required" then
          (.rpcError id (-32001) msg 401 (some (getWwwAuthenticateHeader baseUrl)), db1)
        else
          (.rpcError id (-32000) msg 400 none, db1)
      | .ok result =>
        (.success id (buildToolContent n result) result, db1)
  | _ =>
    (.rpcError id (-32602) "Invalid params: tool name is required" 400 none, db1)

/-! Concrete instances of the external collaborators and sample stores, used
to evaluate the model on closed inputs. -/

/-- A concrete stand-in for the base64url SHA-256 digest. -/
def hashDemo : String → String := fun s => s ++ "#"

/-- A concrete stand-in for the WHATWG URL parser, defined on the sample
redirect URI. -/
def parseUrlDemo : String → Option ParsedUrl := fun s =>
  if s == "https://client.example/cb" then some ⟨"https:", ""⟩ else none

/-- A 43-character PKCE challenge/verifier sample. -/
def challengeDemo : String := "aaaaaaaaaaaaaaaaaaaaaaaaaaaaaaaaaaaaaaaaaaa"

/-- A fully valid authorize request sample (plain method, state "st1"). -/
def paramsDemo : AuthorizeParams :=
  { responseType := some "code", clientId := some "abc",
    redirectUri := some "https://client.example/cb", state := some "st1",
    scope := none, resource := none, codeChallenge := some challengeDemo,
    codeChallengeMethod := some "plain" }

/-- The empty store. -/
def dbEmpty : Db := ⟨[], []⟩

/-- A stored authorization code matching `paramsDemo`, minted at t=1000. -/
def codeRowDemo : OAuthCode :=
  { id := "id1", codeHash := hashDemo "code1", userId := "u1", clientId := "abc",
    redirectUri := "https://client.example/cb", codeChallenge := challengeDemo,
    codeChallengeMethod := "plain", scope := some "mcp:tools", resource := none,
    expiresAt := 301000, usedAt := none }

/-- A store holding just `codeRowDemo`. -/
def dbOneCode : Db := ⟨[codeRowDemo], []⟩

/-- The exchange input that redeems `codeRowDemo`. -/
def exchangeInputDemo : ExchangeInput :=
  { code := "code1", clientId := some "abc",
    redirectUri := some "https://client.example/cb", codeVerifier := challengeDemo }

/-- A stored access token for user u1, expiring at t=10000. -/
def tokenRowDemo : AccessToken :=
  { tokenHash := hashDemo "tok1", userId := "u1", clientId := "abc",
    scope := some "mcp:tools", resource := none, expiresAt := 10000,
    lastUsedAt := none }

/-- A store holding just `tokenRowDemo`. -/
def dbOneToken : Db := ⟨[], [tokenRowDemo]⟩

/-- A tool environment with one public game g1 and trivial external domain
executors. -/
def toolEnvDemo : ToolEnv :=
  { findGame := fun g => if g == "g1" then some ⟨"g1", true, 100⟩ else none,
    domainAuthed := fun _ _ _ => .ok .null,
    domainOpen := fun _ _ _ => .ok .null }

/-- A concrete stand-in for encodeURIComponent (identity on the sample ids,
which contain no reserved characters). -/
def encodeDemo : String → String := fun s => s

/-- The tools/call params for a snapshot of game g1. -/
def snapshotParamsDemo : Json :=
  .obj [("name", .str "snapshot"), ("arguments", .obj [("gameId", .str "g1")])]

/-- What the snapshot executor returns for game g1 of `toolEnvDemo`
(updatedAt 100 ms, default size 560). -/
def snapshotResultDemo : Json :=
  .obj [("gameId", .str "g1"), ("version", .str "2s"),
    ("snapshotPath", .str "/api/snapshots/g1/2s.svg?size=560"),
    ("mimeType", .str "image/svg+xml")]

/-! ## Claim theorems -/

/-- C8: the tools/list response annotates with `readOnlyHint` exactly the
fixed read-only name set {query_users_by_email, snapshot, status,
get_game_status, history, get_game_history, list_games, get_game,
get_chat_messages}; the remaining registered tools (new_game, move_piece,
post_chat_message) carry no annotation; and since `toolsList` is a constant
of the registry, the annotated set is identical on every call. -/
theorem c8_tools_list_read_only_annotations :
    ((toolsList.filter (fun e => e.readOnlyHint)).map (fun e => e.name) =
      ["query_users_by_email", "snapshot", "status", "get_game_status",
       "history", "get_game_history", "list_games", "get_game",
       "get_chat_messages"]) ∧
    ((toolsList.filter (fun e => !e.readOnlyHint)).map (fun e => e.name) =
      ["new_game", "move_piece", "post_chat_message"]) ∧
    (∀ e ∈ toolsList, (e.readOnlyHint = true ↔ e.name ∈ readOnlyToolNames)) :=
  ⟨by decide, by decide, by decide⟩

/-- C3: PKCE verification at exchange: S256 succeeds iff the hashed verifier
equals the stored challenge, plain iff the verifier equals it literally, any
other stored method never verifies; /oauth/authorize rejects any other
method with an invalid_request error redirect at issuance time; the method
defaults to plain when the parameter is absent; and a PKCE mismatch at
exchange yields invalid_grant with the store untouched. -/
theorem c3_pkce_verification :
    (∀ (hash : String → String) (challenge verifier : String),
      verifyPkce hash challenge "S256" verifier = (hash verifier == challenge)) ∧
    (∀ (hash : String → String) (challenge verifier : String),
      verifyPkce hash challenge "plain" verifier = (verifier == challenge)) ∧
    (∀ (hash : String → String) (challenge method verifier : String),
      method ≠ "S256" → method ≠ "plain" →
      verifyPkce hash challenge method verifier = false) ∧
    (∀ parseUrl hash allowed session now freshId freshCode search
       (p : AuthorizeParams) db,
      optFalsy p.clientId = false → optFalsy p.redirectUri = false →
      validateRedirectUri parseUrl (p.redirectUri.getD "") = true →
      p.responseType = some "code" →
      optFalsy p.codeChallenge = false →
      isValidCodeChallenge (p.codeChallenge.getD "") = true →
      effectiveMethod p ≠ "S256" → effectiveMethod p ≠ "plain" →
      authorizeGET parseUrl hash allowed session now freshId freshCode search p db =
        (.errorRedirect (p.redirectUri.getD "") "invalid_request"
          "Unsupported code_challenge_method" (stateQ p.state), db)) ∧
    (∀ p : AuthorizeParams, p.codeChallengeMethod = none →
      effectiveMethod p = "plain") ∧
    (∀ (hash : String → String) now freshToken (input : ExchangeInput) db c,
      findCode db (hash input.code) = some c →
      c.usedAt = none → now < c.expiresAt →
      input.clientId = some c.clientId → input.redirectUri = some c.redirectUri →
      verifyPkce hash c.codeChallenge c.codeChallengeMethod input.codeVerifier = false →
      exchangeAuthorizationCode hash now freshToken input db =
        (.error "invalid_grant", db)) := by
  refine ⟨fun hash c v => rfl, fun hash c v => rfl, ?_, ?_, ?_, ?_⟩
  · intro hash c m v h1 h2
    unfold verifyPkce
    rw [show (m == "plain") = false from beq_eq_false_iff_ne.mpr h2,
        show (m == "S256") = false from beq_eq_false_iff_ne.mpr h1]
    rfl
  · intro parseUrl hash allowed session now freshId freshCode search p db
      h1 h2 h3 h4 h5 h6 h7 h8
    have m1 : (effectiveMethod p != "S256") = true := bne_iff_ne.mpr h7
    have m2 : (effectiveMethod p != "plain") = true := bne_iff_ne.mpr h8
    simp [authorizeGET, h1, h2, h3, h4, h5, h6, m1, m2]
  · intro p h
    unfold effectiveMethod
    rw [h]
    decide
  · intro hash now freshToken input db c hf hused hexp hcid hruri hpkce
    have hd : (decide (c.expiresAt ≤ now)) = false :=
      decide_eq_false (not_le.mpr hexp)
    unfold exchangeAuthorizationCode exchangeCheck
    rw [hf]
    simp [hused, hd, hcid, hruri, hpkce]
/-- C8 has no hypotheses; C3's witness exercises every hypothesis-bearing
conjunct of the PKCE claim at concrete inputs. -/
theorem c3_pkce_verification_witness :
    (verifyPkce hashDemo "x#" "S256" "x" = (hashDemo "x" == "x#")) ∧
    (verifyPkce hashDemo challengeDemo "plain" challengeDemo
      = (challengeDemo == challengeDemo)) ∧
    (verifyPkce hashDemo "c" "S512" "v" = false) ∧
    (authorizeGET parseUrlDemo hashDemo [] (some "u1") 0 "id1" "c1" ""
        { paramsDemo with codeChallengeMethod := some "S512" } dbEmpty =
      (.errorRedirect "https://client.example/cb" "invalid_request"
        "Unsupported code_challenge_method" (some "st1"), dbEmpty)) ∧
    (effectiveMethod { paramsDemo with codeChallengeMethod := none } = "plain") ∧
    (exchangeAuthorizationCode hashDemo 1000 "tok1"
        { exchangeInputDemo with codeVerifier := "wrong" } dbOneCode =
      (.error "invalid_grant", dbOneCode)) :=
  ⟨c3_pkce_verification.1 hashDemo "x#" "x",
   c3_pkce_verification.2.1 hashDemo challengeDemo challengeDemo,
   c3_pkce_verification.2.2.1 hashDemo "c" "S512" "v" (by decide) (by decide),
   c3_pkce_verification.2.2.2.1 parseUrlDemo hashDemo [] (some "u1") 0 "id1" "c1" ""
     { paramsDemo with codeChallengeMethod := some "S512" } dbEmpty
     (by decide) (by decide) (by decide) (by decide) (by decide) (by decide)
     (by decide) (by decide),
   c3_pkce_verification.2.2.2.2.1 { paramsDemo with codeChallengeMethod := none } rfl,
   c3_pkce_verification.2.2.2.2.2 hashDemo 1000 "tok1"
     { exchangeInputDemo with codeVerifier := "wrong" } dbOneCode codeRowDemo
     (by decide) rfl (by decide) (by decide) (by decide) (by decide)⟩

/-- C6: exchanging a code at or after its expiry fails with invalid_grant no
matter what verifier is presented (no PKCE hypothesis is needed) and leaves
the store untouched (the expiry check precedes both PKCE verification and
the mark-used update); and every minted code row carries
expiresAt = creation time + 5 minutes and a null usedAt. -/
theorem c6_expired_code_exchange :
    (∀ (hash : String → String) now freshToken (input : ExchangeInput) db c,
      findCode db (hash input.code) = some c →
      c.expiresAt ≤ now →
      exchangeAuthorizationCode hash now freshToken input db =
        (.error "invalid_grant", db)) ∧
    (∀ (hash : String → String) now freshId freshCode uid cid ruri cc m sc res db,
      ∃ row,
        (createAuthorizationCode hash now freshId freshCode uid cid ruri cc m
            sc res db).2.oAuthCodes = row :: db.oAuthCodes ∧
        row.expiresAt = now + 5 * 60 * 1000 ∧ row.usedAt = none) := by
  constructor
  · intro hash now freshToken input db c hf hexp
    have hd : decide (c.expiresAt ≤ now) = true := decide_eq_true hexp
    unfold exchangeAuthorizationCode exchangeCheck
    rw [hf]
    simp [hd]
  · intro hash now freshId freshCode uid cid ruri cc m sc res db
    exact ⟨_, rfl, rfl, rfl⟩

/-- C6 witness: the demo code (expiry 301000) presented with a perfectly
valid verifier at t=301000 is rejected and the store is unchanged; the row
minted at t=1000 expires at 1000 + 5 minutes. -/
theorem c6_expired_code_exchange_witness :
    (exchangeAuthorizationCode hashDemo 301000 "tok1" exchangeInputDemo dbOneCode =
      (.error "invalid_grant", dbOneCode)) ∧
    (∃ row,
      (createAuthorizationCode hashDemo 1000 "id1" "code1" "u1" "abc"
          "https://client.example/cb" challengeDemo "plain" (some "mcp:tools")
          none dbEmpty).2.oAuthCodes = row :: dbEmpty.oAuthCodes ∧
      row.expiresAt = 1000 + 5 * 60 * 1000 ∧ row.usedAt = none) :=
  ⟨c6_expired_code_exchange.1 hashDemo 301000 "tok1" exchangeInputDemo dbOneCode
     codeRowDemo (by decide) (by decide),
   c6_expired_code_exchange.2 hashDemo 1000 "id1" "code1" "u1" "abc"
     "https://client.example/cb" challengeDemo "plain" (some "mcp:tools") none
     dbEmpty⟩

/-- Marking preserves the `codeHash` column. -/
theorem markUsedRow_codeHash (id : String) (now : Int) (r : OAuthCode) :
    (markUsedRow id now r).codeHash = r.codeHash := by
  unfold markUsedRow; split <;> rfl

/-- After marking, no row still matches the `{ id, usedAt: null }` filter. -/
theorem markUsedRow_not_unused (id : String) (now : Int) (r : OAuthCode) :
    isUnusedWithId id (markUsedRow id now r) = false := by
  unfold markUsedRow
  by_cases hr : isUnusedWithId id r = true
  · rw [if_pos hr]
    unfold isUnusedWithId
    simp
  · rw [if_neg hr]
    cases hv : isUnusedWithId id r with
    | false => rfl
    | true => exact absurd hv hr

/-- Looking a code up by hash commutes with the mark-used map, because the
map never changes `codeHash`. -/
theorem find_map_markUsedRow (l : List OAuthCode) (id : String) (now : Int)
    (hsh : String) :
    (l.map (markUsedRow id now)).find? (fun r => r.codeHash == hsh) =
      (l.find? (fun r => r.codeHash == hsh)).map (markUsedRow id now) := by
  rw [List.find?_map]
  have hp : ((fun r : OAuthCode => r.codeHash == hsh) ∘ markUsedRow id now) =
      (fun r : OAuthCode => r.codeHash == hsh) := by
    funext x
    simp [Function.comp, markUsedRow_codeHash]
  rw [hp]

/-- After the mark-used map runs, the `{ id, usedAt: null }` filter matches
nothing: a second conditional update reports zero affected rows. -/
theorem filter_map_markUsedRow (l : List OAuthCode) (id : String) (now : Int) :
    (l.map (markUsedRow id now)).filter (isUnusedWithId id) = [] := by
  rw [List.filter_eq_nil_iff]
  intro a ha
  obtain ⟨b, _, rfl⟩ := List.mem_map.mp ha
  rw [markUsedRow_not_unused]
  simp

/-- Inverting a successful validation phase: the row was found under the hash
of the presented code and was still unused. -/
theorem exchangeCheck_found {hash : String → String} {now : Int}
    {input : ExchangeInput} {db : Db} {c : OAuthCode}
    (h : exchangeCheck hash now input db = some c) :
    findCode db (hash input.code) = some c ∧ c.usedAt = none := by
  unfold exchangeCheck at h
  cases hf : findCode db (hash input.code) with
  | none => rw [hf] at h; exact absurd h (by simp)
  | some c' =>
    simp only [hf] at h
    by_cases h1 : (c'.usedAt.isSome || decide (c'.expiresAt ≤ now)) = true
    · rw [if_pos h1] at h; exact absurd h (by simp)
    · rw [if_neg h1] at h
      by_cases h2 : (input.clientId != some c'.clientId
          || input.redirectUri != some c'.redirectUri) = true
      · rw [if_pos h2] at h; exact absurd h (by simp)
      · rw [if_neg h2] at h
        by_cases h3 : (!verifyPkce hash c'.codeChallenge c'.codeChallengeMethod
            input.codeVerifier) = true
        · rw [if_pos h3] at h; exact absurd h (by simp)
        · rw [if_neg h3] at h
          obtain rfl : c' = c := by injection h
          cases hu : c'.usedAt with
          | none => exact ⟨rfl, rfl⟩
          | some v =>
            rw [hu] at h1
            exact absurd rfl h1

/-- Inverting a successful commit phase: the resulting store carries the
mark-used map over the code table. -/
theorem exchangeCommit_ok {hash : String → String} {now : Int} {t : String}
    {c : OAuthCode} {db : Db} {r : Except String ExchangeResult} {db1 : Db}
    (h : exchangeCommit hash now t c db = (r, db1)) (hok : ∃ v, r = .ok v) :
    db1.oAuthCodes = db.oAuthCodes.map (markUsedRow c.id now) := by
  obtain ⟨v, rfl⟩ := hok
  unfold exchangeCommit markCodeUsed at h
  simp only [] at h
  by_cases h0 : (db.oAuthCodes.filter (isUnusedWithId c.id)).length = 0
  · rw [if_pos h0] at h
    have := congrArg Prod.fst h
    exact absurd this (by simp)
  · rw [if_neg h0] at h
    have := congrArg (fun q : (Except String ExchangeResult) × Db => q.2.oAuthCodes) h
    simpa using this.symm

/-- C7: bearer resolution is an exact hash lookup. A resolved identity always
comes from a stored, unexpired token row whose tokenHash equals the hash of
the presented value; and any presented value whose hash matches no stored row
(wrong, truncated, prefix, or otherwise) resolves to null with the store
untouched. -/
theorem c7_bearer_token_hash_lookup :
    (∀ (hash : String → String) now header db uid db2,
      getUserIdFromBearerToken hash now header db = (some uid, db2) →
      ∃ tok r, extractBearerToken header = some tok ∧ r ∈ db.accessTokens ∧
        r.tokenHash = hash tok ∧ now < r.expiresAt ∧ r.userId = uid) ∧
    (∀ (hash : String → String) now header db tok,
      extractBearerToken header = some tok →
      (∀ r ∈ db.accessTokens, r.tokenHash ≠ hash tok) →
      getUserIdFromBearerToken hash now header db = (none, db)) := by
  constructor
  · intro hash now header db uid db2 h
    unfold getUserIdFromBearerToken at h
    cases hex : extractBearerToken header with
    | none => simp only [hex] at h; exact absurd h (by simp)
    | some tok =>
      simp only [hex] at h
      cases hf : db.accessTokens.find? (fun r => r.tokenHash == hash tok) with
      | none => simp only [hf] at h; exact absurd h (by simp)
      | some record =>
        simp only [hf] at h
        by_cases hexp : record.expiresAt ≤ now
        · rw [if_pos hexp] at h; simp at h
        · rw [if_neg hexp] at h
          have h1 : record.userId = uid := by
            have := congrArg Prod.fst h
            simpa using this
          have hbeq := List.find?_some hf
          exact ⟨tok, record, rfl, List.mem_of_find?_eq_some hf,
            eq_of_beq hbeq, not_le.mp hexp, h1⟩
  · intro hash now header db tok hex hnone
    unfold getUserIdFromBearerToken
    simp only [hex]
    cases hf : db.accessTokens.find? (fun r => r.tokenHash == hash tok) with
    | none => simp only [hf]
    | some record =>
      have hbeq := List.find?_some hf
      exact absurd (eq_of_beq hbeq)
        (hnone record (List.mem_of_find?_eq_some hf))

/-- C7 witness: the demo token resolves through its stored hash row, and a
wrong value (whose hash matches nothing stored) resolves to null. -/
theorem c7_bearer_token_hash_lookup_witness :
    (∃ tok r, extractBearerToken (some "Bearer tok1") = some tok ∧
      r ∈ dbOneToken.accessTokens ∧ r.tokenHash = hashDemo tok ∧
      (0 : Int) < r.expiresAt ∧ r.userId = "u1") ∧
    (getUserIdFromBearerToken hashDemo 0 (some "Bearer tok") dbOneToken =
      (none, dbOneToken)) :=
  ⟨c7_bearer_token_hash_lookup.1 hashDemo 0 (some "Bearer tok1") dbOneToken "u1"
     ⟨[], [{ tokenRowDemo with lastUsedAt := some 0 }]⟩ (by decide),
   c7_bearer_token_hash_lookup.2 hashDemo 0 (some "Bearer tok") dbOneToken "tok"
     (by decide) (by decide)⟩

/-- Exchanging with a missing client id or redirect URI can never succeed:
the stored bindings are strings, so the strict comparison against an absent
presented value always fails, and every failure path before the mark-used
update throws invalid_grant with the store untouched. -/
theorem exchange_missing_binding (hash : String → String) (now : Int)
    (freshToken : String) (input : ExchangeInput) (db : Db)
    (h : input.clientId = none ∨ input.redirectUri = none) :
    exchangeAuthorizationCode hash now freshToken input db =
      (.error "invalid_grant", db) := by
  unfold exchangeAuthorizationCode exchangeCheck
  cases hf : findCode db (hash input.code) with
  | none => rfl
  | some c =>
    cases hb : (c.usedAt.isSome || decide (c.expiresAt ≤ now)) with
    | true => simp [hb]
    | false =>
      have h2 : (input.clientId != some c.clientId
          || input.redirectUri != some c.redirectUri) = true := by
        rcases h with h | h <;> simp [h]
      simp [hb, h2]

/-- C9: POST /oauth/token with client_id omitted (and no Basic credentials)
or redirect_uri omitted always answers invalid_grant, whatever the store
holds — in particular even for a fresh, unexpired, unused code with a correct
verifier — because the route forwards empty fields as undefined while every
stored binding is a string, so the strict equality check cannot pass. -/
theorem c9_token_omitted_client_or_redirect :
    ∀ (hash : String → String) allowed now freshToken (body : TokenBody) db,
      body.grantType = "authorization_code" →
      body.code.isEmpty = false →
      isValidPkceVerifier body.codeVerifier = true →
      (body.clientId.isEmpty = true ∨ clientIdAllowed allowed body.clientId = true) →
      (body.clientId = "" ∨ body.redirectUri = "") →
      tokenPOST hash allowed now freshToken body db =
        (.oauthError 400 "invalid_grant"
          "Authorization code is invalid or expired", db) := by
  intro hash allowed now freshToken body db hg hc hv hall homit
  have hve : body.codeVerifier.isEmpty = false := by
    cases hy : body.codeVerifier.isEmpty with
    | false => rfl
    | true =>
      rw [String.isEmpty_iff] at hy
      rw [hy] at hv
      exact absurd hv (by decide)
  have hcl : (!body.clientId.isEmpty && !clientIdAllowed allowed body.clientId) = false := by
    rcases hall with h | h <;> simp [h]
  unfold tokenPOST
  rw [hg]
  simp only [bne_self_eq_false, Bool.false_eq_true, if_false, hc, hve,
    Bool.or_self, hv, Bool.not_true, hcl]
  rw [exchange_missing_binding hash now freshToken _ db (by
    rcases homit with h | h
    · exact Or.inl (by rw [h]; rfl)
    · exact Or.inr (by rw [h]; rfl))]

/-- C1: an authorization code is redeemable at most once. The exchange only
issues a token when the conditional mark-used update affects a nonzero number
of rows, and any attempt that loses fails with invalid_grant. Two exchange
attempts for the same code cannot both succeed, whether the second starts
after the first finished (sequential) or both validate first and then race
to the conditional update (interleaved commits): whenever the first attempt
succeeds, the other observes invalid_grant. -/
theorem c1_code_redeemable_at_most_once :
    ∀ (hash : String → String) (now1 now2 : Int) (t1 t2 : String)
      (i1 i2 : ExchangeInput) (db : Db), i1.code = i2.code →
      (∀ r1 db1, exchangeAuthorizationCode hash now1 t1 i1 db = (r1, db1) →
        (∃ v, r1 = .ok v) →
        (exchangeAuthorizationCode hash now2 t2 i2 db1).1 = .error "invalid_grant") ∧
      (∀ c1 c2 r1 db1, exchangeCheck hash now1 i1 db = some c1 →
        exchangeCheck hash now2 i2 db = some c2 →
        exchangeCommit hash now1 t1 c1 db = (r1, db1) →
        (∃ v, r1 = .ok v) →
        (exchangeCommit hash now2 t2 c2 db1).1 = .error "invalid_grant") := by
  intro hash now1 now2 t1 t2 i1 i2 db hcode
  constructor
  · intro r1 db1 hex hok
    unfold exchangeAuthorizationCode at hex
    cases hc : exchangeCheck hash now1 i1 db with
    | none =>
      rw [hc] at hex
      obtain ⟨v, rfl⟩ := hok
      have := congrArg Prod.fst hex
      exact absurd this (by simp)
    | some c1 =>
      rw [hc] at hex
      obtain ⟨hfind1, hused1⟩ := exchangeCheck_found hc
      have hdb1 : db1.oAuthCodes = db.oAuthCodes.map (markUsedRow c1.id now1) :=
        exchangeCommit_ok hex hok
      have hfind2 : findCode db1 (hash i2.code) =
          some (markUsedRow c1.id now1 c1) := by
        unfold findCode
        rw [hdb1, find_map_markUsedRow, ← hcode]
        unfold findCode at hfind1
        rw [hfind1]
        rfl
      have hmarked : (markUsedRow c1.id now1 c1).usedAt = some now1 := by
        unfold markUsedRow
        rw [if_pos (by unfold isUnusedWithId; rw [hused1]; simp)]
      unfold exchangeAuthorizationCode exchangeCheck
      rw [hfind2]
      simp [hmarked]
  · intro c1 c2 r1 db1 hc1 hc2 hcommit hok
    obtain ⟨hf1, hused1⟩ := exchangeCheck_found hc1
    obtain ⟨hf2, _⟩ := exchangeCheck_found hc2
    have hceq : c2 = c1 := by
      rw [← hcode] at hf2
      rw [hf1] at hf2
      injection hf2 with h
      exact h.symm
    have hdb1 : db1.oAuthCodes = db.oAuthCodes.map (markUsedRow c1.id now1) :=
      exchangeCommit_ok hcommit hok
    have hcount : (db1.oAuthCodes.filter (isUnusedWithId c1.id)).length = 0 := by
      rw [hdb1, filter_map_markUsedRow]
      rfl
    rw [hceq]
    unfold exchangeCommit markCodeUsed
    simp only []
    rw [if_pos hcount]

/-- C1 witness: redeeming the demo code succeeds once; both the sequential
re-exchange and the racing second commit observe invalid_grant. -/
theorem c1_code_redeemable_at_most_once_witness :
    ((exchangeAuthorizationCode hashDemo 2000 "tok2" exchangeInputDemo
        (exchangeAuthorizationCode hashDemo 1000 "tok1" exchangeInputDemo
          dbOneCode).2).1 = .error "invalid_grant") ∧
    ((exchangeCommit hashDemo 2000 "tok2" codeRowDemo
        (exchangeCommit hashDemo 1000 "tok1" codeRowDemo dbOneCode).2).1 =
      .error "invalid_grant") :=
  ⟨(c1_code_redeemable_at_most_once hashDemo 1000 2000 "tok1" "tok2"
      exchangeInputDemo exchangeInputDemo dbOneCode rfl).1
     (exchangeAuthorizationCode hashDemo 1000 "tok1" exchangeInputDemo dbOneCode).1
     (exchangeAuthorizationCode hashDemo 1000 "tok1" exchangeInputDemo dbOneCode).2
     rfl ⟨{ accessToken := "tok1", scope := "mcp:tools", expiresIn := 3600 }, rfl⟩,
   (c1_code_redeemable_at_most_once hashDemo 1000 2000 "tok1" "tok2"
      exchangeInputDemo exchangeInputDemo dbOneCode rfl).2
     codeRowDemo codeRowDemo
     (exchangeCommit hashDemo 1000 "tok1" codeRowDemo dbOneCode).1
     (exchangeCommit hashDemo 1000 "tok1" codeRowDemo dbOneCode).2
     (by decide) (by decide) rfl
     ⟨{ accessToken := "tok1", scope := "mcp:tools", expiresIn := 3600 }, rfl⟩⟩

/-- C9 witness: a fresh, unexpired, unused demo code with a correct plain
verifier is still rejected with invalid_grant when client_id is omitted. -/
theorem c9_token_omitted_client_or_redirect_witness :
    tokenPOST hashDemo [] 1000 "tokX"
      { grantType := "authorization_code", code := "code1", clientId := "",
        clientSecret := "", redirectUri := "https://client.example/cb",
        codeVerifier := challengeDemo } dbOneCode =
      (.oauthError 400 "invalid_grant"
        "Authorization code is invalid or expired", dbOneCode) :=
  c9_token_omitted_client_or_redirect hashDemo [] 1000 "tokX" _ dbOneCode
    rfl rfl (by decide) (Or.inl rfl) (Or.inl rfl)

/-- C5 (amended): GET /oauth/authorize failure routing in its fixed order.
Missing client_id or redirect_uri is a terminal 400 JSON error; an invalid
redirect_uri is a terminal 400 JSON error; every later failure is a 302
redirect back to redirect_uri carrying error and error_description (plus
state when it is present and non-empty, which the route checks with a
truthiness test): wrong response_type maps to unsupported_response_type,
missing/malformed code_challenge and an unsupported code_challenge_method to
invalid_request, and a client outside a non-empty allow-list to
unauthorized_client, while an empty allow-list admits every client. -/
theorem c5_authorize_failure_routing :
    (∀ pu hash allowed session now fid fc search (p : AuthorizeParams) db,
      (p.clientId = none ∨ p.redirectUri = none) →
      authorizeGET pu hash allowed session now fid fc search p db =
        (.jsonError 400 "invalid_request" "Missing client_id or redirect_uri", db)) ∧
    (∀ pu hash allowed session now fid fc search (p : AuthorizeParams) db,
      optFalsy p.clientId = false → optFalsy p.redirectUri = false →
      validateRedirectUri pu (p.redirectUri.getD "") = false →
      authorizeGET pu hash allowed session now fid fc search p db =
        (.jsonError 400 "invalid_request" "Invalid redirect_uri", db)) ∧
    (∀ pu hash allowed session now fid fc search (p : AuthorizeParams) db,
      optFalsy p.clientId = false → optFalsy p.redirectUri = false →
      validateRedirectUri pu (p.redirectUri.getD "") = true →
      p.responseType ≠ some "code" →
      authorizeGET pu hash allowed session now fid fc search p db =
        (.errorRedirect (p.redirectUri.getD "") "unsupported_response_type"
          "Only response_type=code is supported" (stateQ p.state), db)) ∧
    (∀ pu hash allowed session now fid fc search (p : AuthorizeParams) db,
      optFalsy p.clientId = false → optFalsy p.redirectUri = false →
      validateRedirectUri pu (p.redirectUri.getD "") = true →
      p.responseType = some "code" →
      (optFalsy p.codeChallenge = true ∨
        isValidCodeChallenge (p.codeChallenge.getD "") = false) →
      authorizeGET pu hash allowed session now fid fc search p db =
        (.errorRedirect (p.redirectUri.getD "") "invalid_request"
          "Missing or invalid code_challenge" (stateQ p.state), db)) ∧
    (∀ pu hash allowed session now fid fc search (p : AuthorizeParams) db,
      optFalsy p.clientId = false → optFalsy p.redirectUri = false →
      validateRedirectUri pu (p.redirectUri.getD "") = true →
      p.responseType = some "code" →
      optFalsy p.codeChallenge = false →
      isValidCodeChallenge (p.codeChallenge.getD "") = true →
      effectiveMethod p ≠ "S256" → effectiveMethod p ≠ "plain" →
      authorizeGET pu hash allowed session now fid fc search p db =
        (.errorRedirect (p.redirectUri.getD "") "invalid_request"
          "Unsupported code_challenge_method" (stateQ p.state), db)) ∧
    (∀ pu hash allowed session now fid fc search (p : AuthorizeParams) db,
      optFalsy p.clientId = false → optFalsy p.redirectUri = false →
      validateRedirectUri pu (p.redirectUri.getD "") = true →
      p.responseType = some "code" →
      optFalsy p.codeChallenge = false →
      isValidCodeChallenge (p.codeChallenge.getD "") = true →
      (effectiveMethod p = "S256" ∨ effectiveMethod p = "plain") →
      allowed.isEmpty = false →
      allowed.contains (p.clientId.getD "") = false →
      authorizeGET pu hash allowed session now fid fc search p db =
        (.errorRedirect (p.redirectUri.getD "")
          "unauthorized_client" "Client is not allowed" (stateQ p.state), db)) ∧
    (∀ pu hash now fid fc search (p : AuthorizeParams) db u,
      optFalsy p.clientId = false → optFalsy p.redirectUri = false →
      validateRedirectUri pu (p.redirectUri.getD "") = true →
      p.responseType = some "code" →
      optFalsy p.codeChallenge = false →
      isValidCodeChallenge (p.codeChallenge.getD "") = true →
      (effectiveMethod p = "S256" ∨ effectiveMethod p = "plain") →
      (authorizeGET pu hash [] none now fid fc search p db =
        (.signInRedirect "/api/auth/signin/google" search, db)) ∧
      ((authorizeGET pu hash [] (some u) now fid fc search p db).1 =
        .codeRedirect (p.redirectUri.getD "") fc (stateQ p.state))) ∧
    (∀ b e d st, (AuthorizeResult.errorRedirect b e d st).status = 302) ∧
    (∀ s e d, (AuthorizeResult.jsonError s e d).status = s) := by
  refine ⟨?_, ?_, ?_, ?_, ?_, ?_, ?_, fun b e d st => rfl, fun s e d => rfl⟩
  · intro pu hash allowed session now fid fc search p db h
    rcases h with h | h <;> simp [authorizeGET, h, optFalsy]
  · intro pu hash allowed session now fid fc search p db h1 h2 h3
    simp [authorizeGET, h1, h2, h3]
  · intro pu hash allowed session now fid fc search p db h1 h2 h3 h4
    have h4b : (p.responseType != some "code") = true := bne_iff_ne.mpr h4
    simp [authorizeGET, h1, h2, h3, h4b]
  · intro pu hash allowed session now fid fc search p db h1 h2 h3 h4 h5
    have h4b : (p.responseType != some "code") = false := by
      rw [h4]; simp
    rcases h5 with h5 | h5 <;>
      simp [authorizeGET, h1, h2, h3, h4b, h5]
  · intro pu hash allowed session now fid fc search p db h1 h2 h3 h4 h5 h6 h7 h8
    have h4b : (p.responseType != some "code") = false := by
      rw [h4]; simp
    have m1 : (effectiveMethod p != "S256") = true := bne_iff_ne.mpr h7
    have m2 : (effectiveMethod p != "plain") = true := bne_iff_ne.mpr h8
    simp [authorizeGET, h1, h2, h3, h4b, h5, h6, m1, m2]
  · intro pu hash allowed session now fid fc search p db h1 h2 h3 h4 h5 h6 h7 h8 h9
    have h4b : (p.responseType != some "code") = false := by
      rw [h4]; simp
    have hm : (effectiveMethod p != "S256" && effectiveMethod p != "plain") = false := by
      rcases h7 with h7 | h7 <;> rw [h7] <;> simp
    have hcl : clientIdAllowed allowed (p.clientId.getD "") = false := by
      unfold clientIdAllowed
      rw [h8, h9]
      rfl
    simp [authorizeGET, h1, h2, h3, h4b, h5, h6, hm, hcl]
  · intro pu hash now fid fc search p db u h1 h2 h3 h4 h5 h6 h7
    have h4b : (p.responseType != some "code") = false := by
      rw [h4]; simp
    have hm : (effectiveMethod p != "S256" && effectiveMethod p != "plain") = false := by
      rcases h7 with h7 | h7 <;> rw [h7] <;> simp
    constructor
    · simp [authorizeGET, h1, h2, h3, h4b, h5, h6, hm, clientIdAllowed]
    · simp [authorizeGET, h1, h2, h3, h4b, h5, h6, hm, clientIdAllowed,
        createAuthorizationCode]

/-- C5 counterexample: a request whose state parameter is present but empty
(`?state=`) fails response_type validation and is redirected with NO state
parameter attached, while the claim as stated requires error redirects to
carry the state parameter whenever it is present. -/
theorem c5_authorize_failure_routing_counterexample :
    ((authorizeGET parseUrlDemo hashDemo [] none 0 "id1" "c1" ""
        { paramsDemo with responseType := some "token", state := some "" }
        dbEmpty).1 =
      .errorRedirect "https://client.example/cb" "unsupported_response_type"
        "Only response_type=code is supported" none) ∧
    ((authorizeGET parseUrlDemo hashDemo [] none 0 "id1" "c1" ""
        { paramsDemo with responseType := some "token", state := some "" }
        dbEmpty).1 ≠
      .errorRedirect "https://client.example/cb" "unsupported_response_type"
        "Only response_type=code is supported" (some "")) :=
  ⟨by decide, by decide⟩

/-- C5 witness: one concrete request per failure class, in routing order,
plus the sign-in and success branches under an empty allow-list. -/
theorem c5_authorize_failure_routing_witness :
    (authorizeGET parseUrlDemo hashDemo [] none 0 "id1" "c1" ""
        { paramsDemo with clientId := none } dbEmpty =
      (.jsonError 400 "invalid_request" "Missing client_id or redirect_uri",
        dbEmpty)) ∧
    (authorizeGET parseUrlDemo hashDemo [] none 0 "id1" "c1" ""
        { paramsDemo with redirectUri := some "nota url" } dbEmpty =
      (.jsonError 400 "invalid_request" "Invalid redirect_uri", dbEmpty)) ∧
    (authorizeGET parseUrlDemo hashDemo [] none 0 "id1" "c1" ""
        { paramsDemo with responseType := some "token" } dbEmpty =
      (.errorRedirect "https://client.example/cb" "unsupported_response_type"
        "Only response_type=code is supported" (some "st1"), dbEmpty)) ∧
    (authorizeGET parseUrlDemo hashDemo [] none 0 "id1" "c1" ""
        { paramsDemo with codeChallenge := none } dbEmpty =
      (.errorRedirect "https://client.example/cb" "invalid_request"
        "Missing or invalid code_challenge" (some "st1"), dbEmpty)) ∧
    (authorizeGET parseUrlDemo hashDemo [] none 0 "id1" "c1" ""
        { paramsDemo with codeChallengeMethod := some "S999" } dbEmpty =
      (.errorRedirect "https://client.example/cb" "invalid_request"
        "Unsupported code_challenge_method" (some "st1"), dbEmpty)) ∧
    (authorizeGET parseUrlDemo hashDemo ["other"] none 0 "id1" "c1" ""
        paramsDemo dbEmpty =
      (.errorRedirect "https://client.example/cb" "unauthorized_client"
        "Client is not allowed" (some "st1"), dbEmpty)) ∧
    (authorizeGET parseUrlDemo hashDemo [] none 0 "id1" "c1" "?q=1"
        paramsDemo dbEmpty =
      (.signInRedirect "/api/auth/signin/google" "?q=1", dbEmpty)) ∧
    ((authorizeGET parseUrlDemo hashDemo [] (some "u1") 0 "id1" "c1" ""
        paramsDemo dbEmpty).1 =
      .codeRedirect "https://client.example/cb" "c1" (some "st1")) :=
  ⟨c5_authorize_failure_routing.1 parseUrlDemo hashDemo [] none 0 "id1" "c1" ""
     { paramsDemo with clientId := none } dbEmpty (Or.inl rfl),
   c5_authorize_failure_routing.2.1 parseUrlDemo hashDemo [] none 0 "id1" "c1" ""
     { paramsDemo with redirectUri := some "nota url" } dbEmpty
     (by decide) (by decide) (by decide),
   c5_authorize_failure_routing.2.2.1 parseUrlDemo hashDemo [] none 0 "id1" "c1" ""
     { paramsDemo with responseType := some "token" } dbEmpty
     (by decide) (by decide) (by decide) (by decide),
   c5_authorize_failure_routing.2.2.2.1 parseUrlDemo hashDemo [] none 0 "id1" "c1" ""
     { paramsDemo with codeChallenge := none } dbEmpty
     (by decide) (by decide) (by decide) (by decide) (Or.inl (by decide)),
   c5_authorize_failure_routing.2.2.2.2.1 parseUrlDemo hashDemo [] none 0 "id1" "c1" ""
     { paramsDemo with codeChallengeMethod := some "S999" } dbEmpty
     (by decide) (by decide) (by decide) (by decide) (by decide) (by decide)
     (by decide) (by decide),
   c5_authorize_failure_routing.2.2.2.2.2.1 parseUrlDemo hashDemo ["other"] none 0
     "id1" "c1" "" paramsDemo dbEmpty
     (by decide) (by decide) (by decide) (by decide) (by decide) (by decide)
     (Or.inr (by decide)) (by decide) (by decide),
   (c5_authorize_failure_routing.2.2.2.2.2.2.1 parseUrlDemo hashDemo 0 "id1" "c1"
     "?q=1" paramsDemo dbEmpty "u1"
     (by decide) (by decide) (by decide) (by decide) (by decide) (by decide)
     (Or.inr (by decide))).1,
   (c5_authorize_failure_routing.2.2.2.2.2.2.1 parseUrlDemo hashDemo 0 "id1" "c1"
     "" paramsDemo dbEmpty "u1"
     (by decide) (by decide) (by decide) (by decide) (by decide) (by decide)
     (Or.inr (by decide))).2⟩

/-- C2 counterexample: a GET /oauth/authorize request that passes every
validation with an authenticated user but carries a present-and-empty state
(`?state=`) is answered with a code redirect that attaches NO state
parameter, while the claim as stated requires the response to carry the
original state parameter unchanged whenever it was not absent. -/
theorem c2_round_trip_counterexample :
    ((authorizeGET parseUrlDemo hashDemo [] (some "u1") 0 "id1" "c1" ""
        { paramsDemo with state := some "" } dbEmpty).1 =
      .codeRedirect "https://client.example/cb" "c1" none) ∧
    ((authorizeGET parseUrlDemo hashDemo [] (some "u1") 0 "id1" "c1" ""
        { paramsDemo with state := some "" } dbEmpty).1 ≠
      .codeRedirect "https://client.example/cb" "c1" (some "")) :=
  ⟨by decide, by decide⟩

/-- The tools/call response depends on the request only through the resolved
caller identity `session?.user?.id ?? bearerUserId`: two calls that resolve
to the same identity receive the same JSON-RPC response (the second
component, the store, may differ by the advisory lastUsedAt stamp). -/
theorem mcpToolsCall_fst_congr (env : ToolEnv) (enc hash : String → String)
    (baseUrl : String) (now : Int) (s1 s2 h1 h2 : Option String)
    (db1 db2 : Db) (id : Json) (params : Option Json)
    (hid : (s1.orElse fun _ => (getUserIdFromBearerToken hash now h1 db1).1) =
           (s2.orElse fun _ => (getUserIdFromBearerToken hash now h2 db2).1)) :
    (mcpToolsCall env enc hash baseUrl now s1 h1 id params db1).1 =
    (mcpToolsCall env enc hash baseUrl now s2 h2 id params db2).1 := by
  unfold mcpToolsCall
  cases hR1 : getUserIdFromBearerToken hash now h1 db1 with
  | mk b1 d1 =>
  cases hR2 : getUserIdFromBearerToken hash now h2 db2 with
  | mk b2 d2 =>
  rw [hR1, hR2] at hid
  simp only [] at hid
  simp only []
  rw [hid]
  rcases params with _ | j
  · rfl
  · cases j with
    | null => rfl
    | bool b => rfl
    | num n => rfl
    | str s => rfl
    | arr items => rfl
    | obj fields =>
      cases hnf : lookupField fields "name" with
      | none => simp only [hnf]
      | some jn =>
        cases jn with
        | null => simp only [hnf]
        | bool b => simp only [hnf]
        | num n => simp only [hnf]
        | arr items => simp only [hnf]
        | obj fs => simp only [hnf]
        | str n =>
          simp only [hnf]
          by_cases hne : n.isEmpty = true
          · simp only [if_pos hne]
          · simp only [if_neg hne]
            cases hex : executeTool env enc n
                ((lookupField fields "arguments").getD (.obj []))
                (s2.orElse fun _ => b2) with
            | error m =>
              simp only [hex]
              cases hb : (m == "Authentication required") <;> simp [hb]
            | ok r => simp only [hex]

/-- C2 (amended): the full round trip. A GET /oauth/authorize request that
passes every validation with authenticated user u is answered with a 302
redirect to redirect_uri carrying the freshly minted code and the state
parameter exactly when it was present and non-empty (truthy), unchanged; a
POST /oauth/token presenting that code with the same client_id and
redirect_uri and a PKCE-correct verifier before the code's expiry is answered
with a bearer access token; and presenting that token in the Authorization
header of a /api/mcp tools/call (with no browser session, before the token's
expiry) resolves the caller identity to the same user id u: the handler's
identity resolution yields u, and the tools/call response — for every tool
name and arguments — is identical to that of a call carried by a browser
session authenticated as u. -/
theorem c2_authorize_token_bearer_round_trip
    (parseUrl : String → Option ParsedUrl) (hash : String → String)
    (allowed : List String)
    (u v hdr search freshId freshCode freshToken : String)
    (p : AuthorizeParams) (db0 : Db) (now1 now2 now3 : Int)
    (h1 : optFalsy p.clientId = false)
    (h2 : optFalsy p.redirectUri = false)
    (h3 : validateRedirectUri parseUrl (p.redirectUri.getD "") = true)
    (h4 : p.responseType = some "code")
    (h5 : optFalsy p.codeChallenge = false)
    (h6 : isValidCodeChallenge (p.codeChallenge.getD "") = true)
    (h7 : effectiveMethod p = "S256" ∨ effectiveMethod p = "plain")
    (h8 : clientIdAllowed allowed (p.clientId.getD "") = true)
    (hfc : freshCode.isEmpty = false)
    (hverifier : isValidPkceVerifier v = true)
    (hpkce : verifyPkce hash (p.codeChallenge.getD "") (effectiveMethod p) v = true)
    (hnow2 : now2 < now1 + codeTtlMs)
    (hnow3 : now3 < now2 + accessTokenTtlMs)
    (hextract : extractBearerToken (some hdr) = some freshToken) :
    ((authorizeGET parseUrl hash allowed (some u) now1 freshId freshCode search
        p db0).1 =
      .codeRedirect (p.redirectUri.getD "") freshCode (stateQ p.state)) ∧
    (∃ issuedScope,
      (tokenPOST hash allowed now2 freshToken
        { grantType := "authorization_code", code := freshCode,
          clientId := p.clientId.getD "", clientSecret := "",
          redirectUri := p.redirectUri.getD "", codeVerifier := v }
        (authorizeGET parseUrl hash allowed (some u) now1 freshId freshCode
          search p db0).2).1 =
      .issued freshToken "Bearer" 3600 issuedScope) ∧
    ((getUserIdFromBearerToken hash now3 (some hdr)
        (tokenPOST hash allowed now2 freshToken
          { grantType := "authorization_code", code := freshCode,
            clientId := p.clientId.getD "", clientSecret := "",
            redirectUri := p.redirectUri.getD "", codeVerifier := v }
          (authorizeGET parseUrl hash allowed (some u) now1 freshId freshCode
            search p db0).2).2).1 = some u) ∧
    (∀ env enc baseUrl (id : Json) (params : Option Json),
      (mcpToolsCall env enc hash baseUrl now3 none (some hdr) id params
        (tokenPOST hash allowed now2 freshToken
          { grantType := "authorization_code", code := freshCode,
            clientId := p.clientId.getD "", clientSecret := "",
            redirectUri := p.redirectUri.getD "", codeVerifier := v }
          (authorizeGET parseUrl hash allowed (some u) now1 freshId freshCode
            search p db0).2).2).1 =
      (mcpToolsCall env enc hash baseUrl now3 (some u) none id params
        (tokenPOST hash allowed now2 freshToken
          { grantType := "authorization_code", code := freshCode,
            clientId := p.clientId.getD "", clientSecret := "",
            redirectUri := p.redirectUri.getD "", codeVerifier := v }
          (authorizeGET parseUrl hash allowed (some u) now1 freshId freshCode
            search p db0).2).2).1) := by
  have h4b : (p.responseType != some "code") = false := by rw [h4]; simp
  have hm : (effectiveMethod p != "S256" && effectiveMethod p != "plain") = false := by
    rcases h7 with h7 | h7 <;> rw [h7] <;> simp
  have hcidne : (p.clientId.getD "").isEmpty = false := by
    cases hc : p.clientId with
    | none => rw [hc] at h1; exact absurd h1 (by decide)
    | some s => rw [hc] at h1; exact h1
  have hrune : (p.redirectUri.getD "").isEmpty = false := by
    cases hc : p.redirectUri with
    | none => rw [hc] at h2; exact absurd h2 (by decide)
    | some s => rw [hc] at h2; exact h2
  have hve : v.isEmpty = false := by
    cases hy : v.isEmpty with
    | false => rfl
    | true =>
      rw [String.isEmpty_iff] at hy
      rw [hy] at hverifier
      exact absurd hverifier (by decide)
  have hd2 : ¬ (now1 + codeTtlMs ≤ now2) := not_le.mpr hnow2
  have hd3 : ¬ (now2 + accessTokenTtlMs ≤ now3) := not_le.mpr hnow3
  have hresolve : (getUserIdFromBearerToken hash now3 (some hdr)
      (tokenPOST hash allowed now2 freshToken
        { grantType := "authorization_code", code := freshCode,
          clientId := p.clientId.getD "", clientSecret := "",
          redirectUri := p.redirectUri.getD "", codeVerifier := v }
        (authorizeGET parseUrl hash allowed (some u) now1 freshId freshCode
          search p db0).2).2).1 = some u := by
    simp [authorizeGET, h1, h2, h3, h4b, h5, h6, hm, h8, createAuthorizationCode,
      tokenPOST, hfc, hve, hverifier, hcidne, hrune,
      exchangeAuthorizationCode, exchangeCheck, findCode, exchangeCommit,
      markCodeUsed, isUnusedWithId, hd2, hpkce,
      getUserIdFromBearerToken, hextract, hd3]
  refine ⟨?_, ?_, hresolve, ?_⟩
  · simp [authorizeGET, h1, h2, h3, h4b, h5, h6, hm, h8, createAuthorizationCode]
  · refine ⟨if (jsTrim (p.scope.getD "mcp:tools")).isEmpty then "mcp:tools"
      else jsTrim (p.scope.getD "mcp:tools"), ?_⟩
    simp [authorizeGET, h1, h2, h3, h4b, h5, h6, hm, h8, createAuthorizationCode,
      tokenPOST, hfc, hve, hverifier, hcidne, hrune,
      exchangeAuthorizationCode, exchangeCheck, findCode, exchangeCommit,
      markCodeUsed, isUnusedWithId, hd2, hpkce]
  · intro env enc baseUrl id params
    exact mcpToolsCall_fst_congr env enc hash baseUrl now3 none (some u)
      (some hdr) none _ _ id params hresolve

/-- C2 witness: the concrete demo pipeline — authorize mints code "c1" for
user u1 with state "st1" preserved, the token endpoint exchanges it for
bearer token "tok1", and presenting "Bearer tok1" resolves back to u1. -/
theorem c2_authorize_token_bearer_round_trip_witness :
    ((authorizeGET parseUrlDemo hashDemo [] (some "u1") 0 "id1" "c1" ""
        paramsDemo dbEmpty).1 =
      .codeRedirect "https://client.example/cb" "c1" (some "st1")) ∧
    (∃ issuedScope,
      (tokenPOST hashDemo [] 1000 "tok1"
        { grantType := "authorization_code", code := "c1", clientId := "abc",
          clientSecret := "", redirectUri := "https://client.example/cb",
          codeVerifier := challengeDemo }
        (authorizeGET parseUrlDemo hashDemo [] (some "u1") 0 "id1" "c1" ""
          paramsDemo dbEmpty).2).1 =
      .issued "tok1" "Bearer" 3600 issuedScope) ∧
    ((getUserIdFromBearerToken hashDemo 2000 (some "Bearer tok1")
        (tokenPOST hashDemo [] 1000 "tok1"
          { grantType := "authorization_code", code := "c1", clientId := "abc",
            clientSecret := "", redirectUri := "https://client.example/cb",
            codeVerifier := challengeDemo }
          (authorizeGET parseUrlDemo hashDemo [] (some "u1") 0 "id1" "c1" ""
            paramsDemo dbEmpty).2).2).1 = some "u1") ∧
    ((mcpToolsCall toolEnvDemo encodeDemo hashDemo "https://h.example" 2000 none
        (some "Bearer tok1") (.num 1) (some snapshotParamsDemo)
        (tokenPOST hashDemo [] 1000 "tok1"
          { grantType := "authorization_code", code := "c1", clientId := "abc",
            clientSecret := "", redirectUri := "https://client.example/cb",
            codeVerifier := challengeDemo }
          (authorizeGET parseUrlDemo hashDemo [] (some "u1") 0 "id1" "c1" ""
            paramsDemo dbEmpty).2).2).1 =
      (mcpToolsCall toolEnvDemo encodeDemo hashDemo "https://h.example" 2000
        (some "u1") none (.num 1) (some snapshotParamsDemo)
        (tokenPOST hashDemo [] 1000 "tok1"
          { grantType := "authorization_code", code := "c1", clientId := "abc",
            clientSecret := "", redirectUri := "https://client.example/cb",
            codeVerifier := challengeDemo }
          (authorizeGET parseUrlDemo hashDemo [] (some "u1") 0 "id1" "c1" ""
            paramsDemo dbEmpty).2).2).1) := by
  have A := c2_authorize_token_bearer_round_trip parseUrlDemo hashDemo [] "u1"
    challengeDemo "Bearer tok1" "" "id1" "c1" "tok1" paramsDemo dbEmpty 0 1000 2000
    (by decide) (by decide) (by decide) (by decide) (by decide) (by decide)
    (by decide) (by decide) (by decide) (by decide) (by decide) (by decide)
    (by decide) (by decide)
  exact ⟨A.1, A.2.1, A.2.2.1,
    A.2.2.2 toolEnvDemo encodeDemo "https://h.example" (.num 1)
      (some snapshotParamsDemo)⟩

/-- C4: a bearer value that is expired (expiresAt not in the future) or
matches no stored token resolves to a null identity with the store untouched;
a tools/call carrying such a value and no browser session behaves identically
to a fully anonymous call; and an anonymous tools/call of a tool that
requires authentication is answered with JSON-RPC error -32001, message
"Authentication required", HTTP status 401, and a WWW-Authenticate header
that contains an authorization_uri. -/
theorem c4_expired_token_behaves_anonymously :
    (∀ (hash : String → String) (now : Int) (header : Option String) (db : Db),
      (∀ r ∈ db.accessTokens, ∀ tok, extractBearerToken header = some tok →
        r.tokenHash = hash tok → r.expiresAt ≤ now) →
      getUserIdFromBearerToken hash now header db = (none, db)) ∧
    (∀ env enc (hash : String → String) baseUrl (now : Int) header id params
       (db : Db),
      (∀ r ∈ db.accessTokens, ∀ tok, extractBearerToken header = some tok →
        r.tokenHash = hash tok → r.expiresAt ≤ now) →
      mcpToolsCall env enc hash baseUrl now none header id params db =
        mcpToolsCall env enc hash baseUrl now none none id params db) ∧
    (∀ env enc (hash : String → String) baseUrl (now : Int) id
       (fields : List (String × Json)) (db : Db) g,
      g ∈ authGatedToolNames →
      lookupField fields "name" = some (.str g) →
      mcpToolsCall env enc hash baseUrl now none none id
        (some (.obj fields)) db =
        (.rpcError id (-32001) "Authentication required" 401
          (some (getWwwAuthenticateHeader baseUrl)), db)) ∧
    (∀ baseUrl, ∃ post, getWwwAuthenticateHeader baseUrl =
      "Bearer realm=\"mcp-chess\", authorization_uri=" ++ post) := by
  have resolver_none : ∀ (hash : String → String) (now : Int)
      (header : Option String) (db : Db),
      (∀ r ∈ db.accessTokens, ∀ tok, extractBearerToken header = some tok →
        r.tokenHash = hash tok → r.expiresAt ≤ now) →
      getUserIdFromBearerToken hash now header db = (none, db) := by
    intro hash now header db hall
    unfold getUserIdFromBearerToken
    cases hex : extractBearerToken header with
    | none => rfl
    | some tok =>
      simp only []
      cases hf : db.accessTokens.find? (fun r => r.tokenHash == hash tok) with
      | none => simp only [hf]
      | some record =>
        simp only [hf]
        have hbeq := List.find?_some hf
        have hexp : record.expiresAt ≤ now :=
          hall record (List.mem_of_find?_eq_some hf) tok hex (eq_of_beq hbeq)
        rw [if_pos hexp]
  refine ⟨resolver_none, ?_, ?_, ?_⟩
  · intro env enc hash baseUrl now header id params db hall
    unfold mcpToolsCall
    rw [resolver_none hash now header db hall]
    rfl
  · intro env enc hash baseUrl now id fields db g hg hname
    have hgcases : g = "new_game" ∨ g = "move_piece" ∨ g = "post_chat_message" := by
      simpa [authGatedToolNames] using hg
    rcases hgcases with rfl | rfl | rfl <;>
      simp [mcpToolsCall, hname, executeTool, toolNames, authGatedToolNames,
        getUserIdFromBearerToken, extractBearerToken] <;> decide
  · intro baseUrl
    refine ⟨"\"" ++ (baseUrl ++ ("/oauth/authorize\", resource_metadata=\"" ++
      (baseUrl ++ "/.well-known/oauth-protected-resource\", scope=\"mcp:tools\""))), ?_⟩
    have hA : ("Bearer realm=\"mcp-chess\", authorization_uri=\"" : String) =
        "Bearer realm=\"mcp-chess\", authorization_uri=" ++ "\"" := rfl
    unfold getWwwAuthenticateHeader
    rw [hA]
    simp only [String.append_assoc]

/-- C4 witness: the demo token is expired at t=20000 (expiresAt 10000), so a
tools/call with it equals the anonymous call; the anonymous move_piece call
gets the -32001/401/WWW-Authenticate answer; the header contains
authorization_uri. -/
theorem c4_expired_token_behaves_anonymously_witness :
    (getUserIdFromBearerToken hashDemo 20000 (some "Bearer tok1") dbOneToken =
      (none, dbOneToken)) ∧
    (mcpToolsCall toolEnvDemo encodeDemo hashDemo "https://h.example" 20000 none
        (some "Bearer tok1") (.num 1)
        (some (.obj [("name", .str "move_piece")])) dbOneToken =
      mcpToolsCall toolEnvDemo encodeDemo hashDemo "https://h.example" 20000 none
        none (.num 1) (some (.obj [("name", .str "move_piece")])) dbOneToken) ∧
    (mcpToolsCall toolEnvDemo encodeDemo hashDemo "https://h.example" 20000 none
        none (.num 1) (some (.obj [("name", .str "move_piece")])) dbOneToken =
      (.rpcError (.num 1) (-32001) "Authentication required" 401
        (some (getWwwAuthenticateHeader "https://h.example")), dbOneToken)) ∧
    (∃ post, getWwwAuthenticateHeader "https://h.example" =
      "Bearer realm=\"mcp-chess\", authorization_uri=" ++ post) :=
  ⟨c4_expired_token_behaves_anonymously.1 hashDemo 20000 (some "Bearer tok1")
     dbOneToken (by decide),
   c4_expired_token_behaves_anonymously.2.1 toolEnvDemo encodeDemo hashDemo
     "https://h.example" 20000 (some "Bearer tok1") (.num 1)
     (some (.obj [("name", .str "move_piece")])) dbOneToken (by decide),
   c4_expired_token_behaves_anonymously.2.2.1 toolEnvDemo encodeDemo hashDemo
     "https://h.example" 20000 (.num 1) [("name", .str "move_piece")]
     dbOneToken "move_piece" (by decide) rfl,
   c4_expired_token_behaves_anonymously.2.2.2 "https://h.example"⟩

/-- C10: every successful result of the registered snapshot executor is an
object holding exactly gameId, version, snapshotPath and mimeType — no data
or dataUrl field — so buildToolContent never takes an image branch for it and
produces exactly one text block with the JSON-serialized result; accordingly
every successful tools/call response for the snapshot tool carries that
single text block alongside the raw result as structuredContent. -/
theorem c10_snapshot_result_single_text_block :
    (∀ env enc args r, snapshotExec env enc args = .ok r →
      (∃ g ver sp, r = .obj [("gameId", .str g), ("version", .str ver),
        ("snapshotPath", .str sp), ("mimeType", .str "image/svg+xml")] ∧
        lookupField [("gameId", Json.str g), ("version", .str ver),
          ("snapshotPath", .str sp), ("mimeType", .str "image/svg+xml")]
          "data" = none ∧
        lookupField [("gameId", Json.str g), ("version", .str ver),
          ("snapshotPath", .str sp), ("mimeType", .str "image/svg+xml")]
          "dataUrl" = none) ∧
      buildToolContent "snapshot" r = [ContentItem.text (Json.stringify r)]) ∧
    (∀ env enc (hash : String → String) baseUrl (now : Int) session header id
       (fields : List (String × Json)) (db : Db) out db2,
      lookupField fields "name" = some (.str "snapshot") →
      mcpToolsCall env enc hash baseUrl now session header id
        (some (.obj fields)) db = (out, db2) →
      ∀ i content sc, out = .success i content sc →
      content = [ContentItem.text (Json.stringify sc)]) := by
  have part1 : ∀ env enc args r, snapshotExec env enc args = .ok r →
      (∃ g ver sp, r = .obj [("gameId", .str g), ("version", .str ver),
        ("snapshotPath", .str sp), ("mimeType", .str "image/svg+xml")] ∧
        lookupField [("gameId", Json.str g), ("version", .str ver),
          ("snapshotPath", .str sp), ("mimeType", .str "image/svg+xml")]
          "data" = none ∧
        lookupField [("gameId", Json.str g), ("version", .str ver),
          ("snapshotPath", .str sp), ("mimeType", .str "image/svg+xml")]
          "dataUrl" = none) ∧
      buildToolContent "snapshot" r = [ContentItem.text (Json.stringify r)] := by
    intro env enc args r h
    unfold snapshotExec at h
    cases hp : parseSnapshotInput args with
    | error e => rw [hp] at h; exact absurd h (by simp)
    | ok pr =>
      obtain ⟨g0, size⟩ := pr
      rw [hp] at h
      simp only [] at h
      cases hg : env.findGame g0 with
      | none => rw [hg] at h; exact absurd h (by simp)
      | some game =>
        simp only [hg] at h
        by_cases hpub : (!game.isPublic) = true
        · rw [if_pos hpub] at h; exact absurd h (by simp)
        · rw [if_neg hpub] at h
          simp only [Except.ok.injEq] at h
          subst h
          refine ⟨⟨game.id, getSnapshotVersion game.updatedAtMs,
            getSnapshotPath enc game.id (getSnapshotVersion game.updatedAtMs) size,
            rfl, rfl, rfl⟩, rfl⟩
  refine ⟨part1, ?_⟩
  intro env enc hash baseUrl now session header id fields db out db2 hname hcall
    i content sc hout
  subst hout
  unfold mcpToolsCall at hcall
  simp only [hname] at hcall
  rw [if_neg (show ¬ (("snapshot" : String).isEmpty = true) by decide)] at hcall
  cases hexec : executeTool env enc "snapshot"
      ((lookupField fields "arguments").getD (.obj []))
      (session.orElse fun _ => (getUserIdFromBearerToken hash now header db).1) with
  | error m =>
    simp only [hexec] at hcall
    by_cases hm : (m == "Authentication required") = true <;>
      simp [hm] at hcall
  | ok r =>
    simp only [hexec] at hcall
    have hse : snapshotExec env enc
        ((lookupField fields "arguments").getD (.obj [])) = .ok r := by
      have : executeTool env enc "snapshot"
          ((lookupField fields "arguments").getD (.obj []))
          (session.orElse fun _ => (getUserIdFromBearerToken hash now header db).1) =
          snapshotExec env enc ((lookupField fields "arguments").getD (.obj [])) := by
        unfold executeTool
        rfl
      rw [← this]
      exact hexec
    have hb := (part1 env enc ((lookupField fields "arguments").getD (.obj [])) r hse).2
    have hc := congrArg Prod.fst hcall
    simp only [RpcOut.success.injEq] at hc
    obtain ⟨-, hcontent, hsc⟩ := hc
    rw [← hcontent, ← hsc]
    exact hb

/-- C10 witness: the concrete snapshot call on game g1 — the executor result
has exactly the four metadata fields and buildToolContent yields the single
serialized text block, both directly and through the tools/call handler. -/
theorem c10_snapshot_result_single_text_block_witness :
    ((∃ g ver sp, snapshotResultDemo = .obj [("gameId", .str g),
        ("version", .str ver), ("snapshotPath", .str sp),
        ("mimeType", .str "image/svg+xml")] ∧
      lookupField [("gameId", Json.str g), ("version", .str ver),
        ("snapshotPath", .str sp), ("mimeType", .str "image/svg+xml")]
        "data" = none ∧
      lookupField [("gameId", Json.str g), ("version", .str ver),
        ("snapshotPath", .str sp), ("mimeType", .str "image/svg+xml")]
        "dataUrl" = none) ∧
      buildToolContent "snapshot" snapshotResultDemo =
        [ContentItem.text (Json.stringify snapshotResultDemo)]) ∧
    (buildToolContent "snapshot" snapshotResultDemo =
      [ContentItem.text (Json.stringify snapshotResultDemo)]) :=
  ⟨c10_snapshot_result_single_text_block.1 toolEnvDemo encodeDemo
     (.obj [("gameId", .str "g1")]) snapshotResultDemo rfl,
   c10_snapshot_result_single_text_block.2 toolEnvDemo encodeDemo hashDemo
     "https://h.example" 0 none none (.num 1)
     [("name", Json.str "snapshot"), ("arguments", Json.obj [("gameId", Json.str "g1")])]
     dbEmpty
     (mcpToolsCall toolEnvDemo encodeDemo hashDemo "https://h.example" 0 none none
       (.num 1) (some snapshotParamsDemo) dbEmpty).1
     (mcpToolsCall toolEnvDemo encodeDemo hashDemo "https://h.example" 0 none none
       (.num 1) (some snapshotParamsDemo) dbEmpty).2
     rfl rfl (.num 1) (buildToolContent "snapshot" snapshotResultDemo)
     snapshotResultDemo rfl⟩

end McpChess
